import Mathlib

set_option maxRecDepth 8000

/-
Verification of the StarSim analytics pipeline
(ParsecCore/examples/setup_paper_trading.py, class PaperTradingSetup).

The Python code operates on pandas Series/DataFrames of floating-point
numbers.  We embed it shallowly over exact rationals:

  * a float column that can hold NaN becomes `List (Option ℚ)` with
    `none` playing the role of the NaN sentinel;
  * the RSI computation, which can produce IEEE infinities through
    division by zero, is carried out in a small IEEE-style value type
    `FV` (finite / +inf / -inf / NaN);
  * quantities whose source computation takes a real square root
    (standard deviations and Pearson correlations) live in `ℝ`.

pandas semantics that matter here and are embedded faithfully:

  * `Series.rolling(window=w).mean()` : entry i is NaN while fewer than
    w observations exist (min_periods defaults to the window size) and
    NaN whenever the trailing window contains a NaN;
  * `Series.ewm(span=s).mean()` : default `adjust=True`, i.e. entry i is
    the weighted average of all data so far with weights (1-a)^j,
    NOT the plain recurrence;
  * `Series.diff` / `Series.pct_change` : entry 0 is NaN;
  * `Series.cumprod()` : skipna, a NaN entry stays NaN in the output but
    does not poison later products;
  * `Series.expanding().max()` : running maximum of the non-NaN prefix
    values (min_periods=1);
  * `Series.min()` : skips NaN, is NaN when no valid value exists;
  * `np.maximum` and arithmetic : propagate NaN;
  * `delta.where(delta > 0, 0)` : a NaN entry fails the comparison and
    is replaced by 0;
  * assigning a Series as a column of a DataFrame: the first assignment
    to an empty frame installs the Series index, every later assignment
    is reindexed (left-joined) onto that existing index;
  * `DataFrame.corr()` : Pearson coefficient per column pair over the
    pairwise complete observations, min_periods = 1, entry NaN when the
    divisor sqrt(ssqdmx*ssqdmy) is zero; all columns are kept.
-/

namespace StarSim

/-! ## An IEEE-style value type for the RSI column -/

/-- Float-like value: finite rational, +infinity, -infinity, or NaN.
Used for the RSI chain `rs = gain / loss`, `RSI = 100 - 100/(1 + rs)`,
where pandas float division by zero produces infinities and NaN. -/
inductive FV where
  | nan : FV
  | pinf : FV
  | ninf : FV
  | fin : ℚ → FV
deriving DecidableEq

def FV.neg : FV → FV
  | .nan => .nan
  | .pinf => .ninf
  | .ninf => .pinf
  | .fin q => .fin (-q)

def FV.add : FV → FV → FV
  | .nan, _ => .nan
  | _, .nan => .nan
  | .pinf, .ninf => .nan
  | .ninf, .pinf => .nan
  | .pinf, _ => .pinf
  | _, .pinf => .pinf
  | .ninf, _ => .ninf
  | _, .ninf => .ninf
  | .fin a, .fin b => .fin (a + b)

def FV.sub (a b : FV) : FV := FV.add a (FV.neg b)

def FV.div : FV → FV → FV
  | .nan, _ => .nan
  | _, .nan => .nan
  | .pinf, .pinf => .nan
  | .pinf, .ninf => .nan
  | .ninf, .pinf => .nan
  | .ninf, .ninf => .nan
  | .pinf, .fin b => if b < 0 then .ninf else .pinf
  | .ninf, .fin b => if b < 0 then .pinf else .ninf
  | .fin _, .pinf => .fin 0
  | .fin _, .ninf => .fin 0
  | .fin a, .fin b =>
      if b = 0 then (if a = 0 then .nan else if 0 < a then .pinf else .ninf)
      else .fin (a / b)

/-- Lift an Option-encoded float (NaN as `none`) into `FV`. -/
def oFV : Option ℚ → FV
  | none => FV.nan
  | some q => FV.fin q

/-! ## Elementary pandas Series operations -/

/-- `Series.pct_change()` : entry 0 is NaN, entry i is close_i/close_(i-1) - 1. -/
def pct_change (xs : List ℚ) : List (Option ℚ) :=
  match xs with
  | [] => []
  | _ :: _ => none :: (xs.zip xs.tail).map (fun p => some (p.2 / p.1 - 1))

/-- `Series.diff()` : entry 0 is NaN, entry i is close_i - close_(i-1). -/
def diffL (xs : List ℚ) : List (Option ℚ) :=
  match xs with
  | [] => []
  | _ :: _ => none :: (xs.zip xs.tail).map (fun p => some (p.2 - p.1))

/-- `Series.shift(1)` : entry 0 is NaN, entry i is the value at i-1. -/
def shift1 (xs : List ℚ) : List (Option ℚ) :=
  match xs with
  | [] => []
  | _ :: _ => none :: xs.dropLast.map some

/-- `Series.rolling(window=w).mean()` over a column that may contain NaN.
Entry i is NaN while fewer than w observations exist (min_periods equals
the window size by default) and NaN whenever the trailing w-window
contains a NaN; otherwise it is the arithmetic mean of the window. -/
def rollingMeanO (w : ℕ) (xs : List (Option ℚ)) : List (Option ℚ) :=
  (List.range xs.length).map (fun i =>
    let win := (xs.drop (i + 1 - w)).take w
    if i + 1 < w then none
    else if win.all Option.isSome then some ((win.filterMap id).sum / (w : ℚ))
    else none)

/-- `Series.ewm(span).mean()` with the pandas default `adjust=True`:
running weighted sums, entry = num/den with
num_i = x_i + (1-a)num_(i-1), den_i = 1 + (1-a)den_(i-1). -/
def ewmAdjustAux (a : ℚ) : ℚ → ℚ → List ℚ → List ℚ
  | _, _, [] => []
  | num, den, x :: rest =>
      (x + (1 - a) * num) / (1 + (1 - a) * den) ::
        ewmAdjustAux a (x + (1 - a) * num) (1 + (1 - a) * den) rest

/-- `Series.ewm(span=s).mean()` with a = 2/(s+1). -/
def ewm_mean (span : ℕ) (xs : List ℚ) : List ℚ :=
  ewmAdjustAux (2 / ((span : ℚ) + 1)) 0 0 xs

/-! ## Indicator Engine columns (calculate_technical_indicators) -/

/-- Column SMA_20 : `df['Close'].rolling(window=20).mean()`. -/
def SMA_20 (close : List ℚ) : List (Option ℚ) := rollingMeanO 20 (close.map some)

/-- Column SMA_50 : `df['Close'].rolling(window=50).mean()`. -/
def SMA_50 (close : List ℚ) : List (Option ℚ) := rollingMeanO 50 (close.map some)

/-- Column EMA_12 : `df['Close'].ewm(span=12).mean()`. -/
def EMA_12 (close : List ℚ) : List ℚ := ewm_mean 12 close

/-- Column EMA_26 : `df['Close'].ewm(span=26).mean()`. -/
def EMA_26 (close : List ℚ) : List ℚ := ewm_mean 26 close

/-- `delta.where(delta > 0, 0)` : positive deltas, 0 elsewhere (a NaN
delta fails the comparison and becomes 0). -/
def gains (close : List ℚ) : List ℚ :=
  (diffL close).map (fun d =>
    match d with
    | some v => if 0 < v then v else 0
    | none => 0)

/-- `-delta.where(delta < 0, 0)` : magnitudes of negative deltas, 0
elsewhere (a NaN delta fails the comparison and becomes -0 = 0). -/
def losses (close : List ℚ) : List ℚ :=
  (diffL close).map (fun d =>
    match d with
    | some v => if v < 0 then -v else 0
    | none => 0)

/-- `gain = (delta.where(delta > 0, 0)).rolling(window=14).mean()`. -/
def gainCol (close : List ℚ) : List (Option ℚ) :=
  rollingMeanO 14 ((gains close).map some)

/-- `loss = (-delta.where(delta < 0, 0)).rolling(window=14).mean()`. -/
def lossCol (close : List ℚ) : List (Option ℚ) :=
  rollingMeanO 14 ((losses close).map some)

/-- `rs = gain / loss` : elementwise float division. -/
def rsCol (close : List ℚ) : List FV :=
  List.zipWith (fun g l => FV.div (oFV g) (oFV l)) (gainCol close) (lossCol close)

/-- `df['RSI'] = 100 - (100 / (1 + rs))` : elementwise float arithmetic. -/
def rsiCol (close : List ℚ) : List FV :=
  (rsCol close).map (fun r =>
    FV.sub (FV.fin 100) (FV.div (FV.fin 100) (FV.add (FV.fin 1) r)))

/-- Column TR :
`np.maximum(high - low, np.maximum(abs(high - close.shift(1)), abs(low - close.shift(1))))`.
`close.shift(1)` is NaN at entry 0 and `np.maximum` propagates NaN, so
entry 0 is NaN. -/
def trList (high low close : List ℚ) : List (Option ℚ) :=
  List.zipWith (fun hl pc =>
    match pc with
    | none => none
    | some c => some (max (hl.1 - hl.2) (max |hl.1 - c| |hl.2 - c|)))
    (high.zip low) (shift1 close)

/-- Column ATR : `df['TR'].rolling(window=14).mean()`. -/
def atrList (high low close : List ℚ) : List (Option ℚ) :=
  rollingMeanO 14 (trList high low close)

/-! ## calculate_max_drawdown -/

/-- `Series.cumprod()` with skipna: a NaN entry stays NaN but does not
poison later products. -/
def cumprodSkip : ℚ → List (Option ℚ) → List (Option ℚ)
  | _, [] => []
  | acc, none :: rest => none :: cumprodSkip acc rest
  | acc, some x :: rest => some (acc * x) :: cumprodSkip (acc * x) rest

/-- `Series.expanding().max()` : running maximum of the valid prefix
values, NaN while no valid value has appeared. -/
def expandingMaxAux : Option ℚ → List (Option ℚ) → List (Option ℚ)
  | _, [] => []
  | acc, none :: rest => acc :: expandingMaxAux acc rest
  | acc, some x :: rest =>
      match acc with
      | none => some x :: expandingMaxAux (some x) rest
      | some a => some (max a x) :: expandingMaxAux (some (max a x)) rest

/-- Elementwise `(cumulative - running_max) / running_max` with NaN
propagation. -/
def ddEntry (c m : Option ℚ) : Option ℚ :=
  match c, m with
  | some cv, some mv => some ((cv - mv) / mv)
  | _, _ => none

/-- One step of the skipna fold behind `Series.min()`. -/
def minStep (acc : Option ℚ) (x : Option ℚ) : Option ℚ :=
  match acc, x with
  | none, v => v
  | some a, none => some a
  | some a, some b => some (min a b)

/-- `Series.min()` : skips NaN, NaN when no valid value exists. -/
def minSkip (xs : List (Option ℚ)) : Option ℚ := xs.foldl minStep none

/-- `calculate_max_drawdown` :
cumulative = (1 + prices.pct_change()).cumprod();
running_max = cumulative.expanding().max();
drawdown = (cumulative - running_max) / running_max;
return drawdown.min(). -/
def calculate_max_drawdown (prices : List ℚ) : Option ℚ :=
  let cumulative := cumprodSkip 1 ((pct_change prices).map (Option.map (fun r => 1 + r)))
  let running_max := expandingMaxAux none cumulative
  let drawdown := List.zipWith ddEntry cumulative running_max
  minSkip drawdown

/-! ## Risk Metrics Calculator (generate_risk_metrics) -/

/-- Mean of a list of rationals (0 for the empty list, as sum/0 = 0). -/
def meanL (l : List ℚ) : ℚ := l.sum / (l.length : ℚ)

/-- Sum of squared deviations from the mean. -/
def ssqdmL (l : List ℚ) : ℚ := ((l.map (fun v => (v - meanL l) ^ 2)).sum)

/-- Central moment of order k, normalised by the length. -/
def centralMoment (k : ℕ) (l : List ℚ) : ℚ :=
  ((l.map (fun v => (v - meanL l) ^ k)).sum) / (l.length : ℚ)

/-- `Series.std()` with the pandas default ddof = 1. -/
noncomputable def sampleStd (l : List ℚ) : ℝ :=
  Real.sqrt ((ssqdmL l : ℝ) / ((l.length : ℝ) - 1))

/-- Insert into a sorted list of rationals. -/
def insertSorted (x : ℚ) : List ℚ → List ℚ
  | [] => [x]
  | y :: t => if x ≤ y then x :: y :: t else y :: insertSorted x t

/-- Ascending insertion sort. -/
def sortAsc (l : List ℚ) : List ℚ := l.foldr insertSorted []

/-- Modelled from the spec: `returns.quantile(0.05)` (pandas is an
external library call), the 5th percentile of the empirical return
distribution with linear interpolation between order statistics. -/
def quantile05 (l : List ℚ) : ℚ :=
  let s := sortAsc l
  let n := s.length
  if n = 0 then 0
  else
    let h : ℚ := ((n : ℚ) - 1) * (1 / 20)
    let lo : ℕ := (Int.floor h).toNat
    let a := s.getD lo 0
    a + (h - (lo : ℚ)) * (s.getD (lo + 1) a - a)

/-- Modelled from the spec: `returns.skew()` (pandas is an external
library call), the standard Fisher third standardized moment of the
return distribution. -/
noncomputable def skewL (l : List ℚ) : ℝ :=
  (centralMoment 3 l : ℝ) / (Real.sqrt (centralMoment 2 l)) ^ 3

/-- Modelled from the spec: `returns.kurtosis()` (pandas is an external
library call), the standard Fisher fourth standardized moment (excess
kurtosis) of the return distribution. -/
def kurtL (l : List ℚ) : ℚ :=
  centralMoment 4 l / (centralMoment 2 l) ^ 2 - 3

/-- The fixed-shape per-symbol risk statistics record. -/
structure RiskMetrics where
  annual_return : ℚ
  annual_volatility : ℝ
  sharpe_ratio : ℝ
  max_drawdown : Option ℚ
  var_95 : ℚ
  skewness : ℝ
  kurtosis : ℝ

/-- The record built for one symbol inside `generate_risk_metrics`,
from `returns = df['Close'].pct_change().dropna()`. -/
noncomputable def mkRiskMetrics (closes : List ℚ) : RiskMetrics :=
  let returns := (pct_change closes).filterMap id
  { annual_return := meanL returns * 252
    annual_volatility := sampleStd returns * Real.sqrt 252
    sharpe_ratio := ((meanL returns * 252 : ℚ) : ℝ) / (sampleStd returns * Real.sqrt 252)
    max_drawdown := calculate_max_drawdown closes
    var_95 := quantile05 returns
    skewness := skewL returns
    kurtosis := (kurtL returns : ℝ) }

/-- `generate_risk_metrics` : one record per symbol whose series passes
the history gate `len(df) > 252`; other symbols are skipped silently. -/
noncomputable def generate_risk_metrics (data : List (String × List ℚ)) :
    List (String × RiskMetrics) :=
  (data.filter (fun p => 252 < p.2.length)).map (fun p => (p.1, mkRiskMetrics p.2))

/-! ## Correlation Analyzer (analyze_correlations) -/

/-- Returns with their dates: the value sequence of
`df['Close'].pct_change()` paired with the original timestamps. -/
def pctChangeTS (ser : List (ℕ × ℚ)) : List (ℕ × Option ℚ) :=
  (ser.map Prod.fst).zip (pct_change (ser.map Prod.snd))

/-- Reindexing lookup: the value at date t, NaN when t is absent. -/
def lookupTS (l : List (ℕ × Option ℚ)) (t : ℕ) : Option ℚ :=
  match l.lookup t with
  | some v => v
  | none => none

/-- The columns of the `returns` DataFrame built by
`analyze_correlations`.  Only symbols with `len(df) > 1` are assigned.
The first assigned Series installs its own index on the empty frame;
every later Series is reindexed (left-joined) onto that index. -/
def corrCols (data : List (String × List (ℕ × ℚ))) :
    List (String × List (Option ℚ)) :=
  match data.filter (fun p => 1 < p.2.length) with
  | [] => []
  | (s₀, ser₀) :: rest =>
      (s₀, pct_change (ser₀.map Prod.snd)) ::
        rest.map (fun p =>
          (p.1, (ser₀.map Prod.fst).map (lookupTS (pctChangeTS p.2))))

/-- The symbols present in the correlation matrix. -/
def corrSymbols (data : List (String × List (ℕ × ℚ))) : List String :=
  (corrCols data).map Prod.fst

/-- The pairwise complete observations of two columns: positions where
both values are valid. -/
def pairedObs (x y : List (Option ℚ)) : List (ℚ × ℚ) :=
  (x.zip y).filterMap (fun p => p.1.bind (fun a => p.2.map (fun b => (a, b))))

/-- Sum of centered cross products of the paired observations. -/
def covSum (obs : List (ℚ × ℚ)) : ℚ :=
  ((obs.map (fun p =>
    (p.1 - meanL (obs.map Prod.fst)) * (p.2 - meanL (obs.map Prod.snd)))).sum)

/-- One entry of `DataFrame.corr()` (pandas nancorr): Pearson
coefficient over the pairwise complete observations, NaN when fewer
than min_periods = 1 observations exist or when the divisor
sqrt(ssqdmx * ssqdmy) is zero. -/
noncomputable def corrEntry (x y : List (Option ℚ)) : Option ℝ :=
  if (pairedObs x y).length < 1 then none
  else if Real.sqrt ((ssqdmL ((pairedObs x y).map Prod.fst) : ℝ) *
      (ssqdmL ((pairedObs x y).map Prod.snd) : ℝ)) = 0 then none
  else some ((covSum (pairedObs x y) : ℝ) /
    Real.sqrt ((ssqdmL ((pairedObs x y).map Prod.fst) : ℝ) *
      (ssqdmL ((pairedObs x y).map Prod.snd) : ℝ)))

/-- `analyze_correlations` as an entry map: `returns.corr()` at the pair
of symbols (a, b); `none` when a symbol has no column. -/
noncomputable def corrMatrix (data : List (String × List (ℕ × ℚ)))
    (a b : String) : Option ℝ :=
  match (corrCols data).lookup a, (corrCols data).lookup b with
  | some x, some y => corrEntry x y
  | _, _ => none

/-! ## Portfolio Allocator -/

/-- The hard-coded growth watchlist of `create_aggressive_portfolio`. -/
def growth_stocks : List String :=
  ["NVDA", "TSLA", "PLTR", "SNOW", "CRWD", "DDOG", "MDB"]

/-- `create_aggressive_portfolio` : 0.10 for each growth-watchlist
symbol appearing among the first 15 ranked entries, then QQQ 0.15,
ARKK 0.05, CASH 0.10.  Keys are distinct, so the insertion-ordered
association list is the Python dict. -/
def create_aggressive_portfolio (sorted_scores : List (String × ℚ)) :
    List (String × ℚ) :=
  ((growth_stocks.filter (fun s => (sorted_scores.take 15).any (fun p => s == p.1))).map
      (fun s => (s, (1 : ℚ) / 10)))
    ++ [("QQQ", 3 / 20), ("ARKK", 1 / 20), ("CASH", 1 / 10)]

/-- `create_moderate_portfolio` : a fixed table, the ranked scores are
ignored. -/
def create_moderate_portfolio (_sorted_scores : List (String × ℚ)) :
    List (String × ℚ) :=
  (["AAPL", "MSFT", "GOOGL", "AMZN"].map (fun s => (s, (1 : ℚ) / 8)))
    ++ (["JPM", "JNJ", "PG", "HD", "BA", "XOM"].map (fun s => (s, (1 : ℚ) / 20)))
    ++ [("SPY", 1 / 10), ("VTI", 1 / 20), ("CASH", 1 / 20)]

/-- `create_conservative_portfolio` : a fixed table, the ranked scores
are ignored. -/
def create_conservative_portfolio (_sorted_scores : List (String × ℚ)) :
    List (String × ℚ) :=
  (["BRK.B", "WMT", "KO", "PFE", "VZ", "T", "JNJ", "PG"].map (fun s => (s, (1 : ℚ) / 20)))
    ++ [("SPY", 1 / 4), ("VTI", 3 / 20), ("CASH", 1 / 5)]

end StarSim


namespace StarSim

/-! ## Spec-side definitions used to state the claims -/

/-- The numerator of the adjust-weighted EWMA: the weighted sum
sum of (1-a)^j * x_(i-j) over j = 0..i. -/
def ewmSpecNum (a : ℚ) (xs : List ℚ) (i : ℕ) : ℚ :=
  ((List.range (i + 1)).map (fun j => (1 - a) ^ j * xs.getD (i - j) 0)).sum

/-- The denominator of the adjust-weighted EWMA: the weight total
sum of (1-a)^j over j = 0..i. -/
def ewmSpecDen (a : ℚ) (i : ℕ) : ℚ :=
  ((List.range (i + 1)).map (fun j => (1 - a) ^ j)).sum

/-- The true-range value named by the spec at index j >= 1:
max(high-low, abs(high - prevclose), abs(low - prevclose)). -/
def trVal (high low close : List ℚ) (j : ℕ) : ℚ :=
  max (high.getD j 0 - low.getD j 0)
    (max |high.getD j 0 - close.getD (j - 1) 0| |low.getD j 0 - close.getD (j - 1) 0|)

end StarSim

namespace StarSim

/-! ## Generic list helper lemmas -/

theorem getElem?_zipWith_some {α β γ : Type} (f : α → β → γ) :
    ∀ (l₁ : List α) (l₂ : List β) (i : ℕ) (a : α) (b : β),
      l₁[i]? = some a → l₂[i]? = some b →
      (List.zipWith f l₁ l₂)[i]? = some (f a b) := by
  intro l₁
  induction l₁ with
  | nil => intro l₂ i a b h; simp at h
  | cons x t ih =>
    intro l₂ i a b h₁ h₂
    cases l₂ with
    | nil => simp at h₂
    | cons y u =>
      cases i with
      | zero => simp at h₁ h₂; simp [h₁, h₂]
      | succ k => simp at h₁ h₂; simpa using ih u k a b h₁ h₂

theorem getElem?_eq_some_getD {l : List ℚ} {j : ℕ} (h : j < l.length) :
    l[j]? = some (l.getD j 0) := by
  rw [List.getD_eq_getElem?_getD, List.getElem?_eq_getElem h]
  simp

theorem map_sum_congr {α : Type} (l : List α) (f g : α → ℚ)
    (h : ∀ a ∈ l, f a = g a) : (l.map f).sum = (l.map g).sum := by
  induction l with
  | nil => simp
  | cons x t ih =>
    simp only [List.map_cons, List.sum_cons]
    rw [h x (by simp), ih (fun a ha => h a (by simp [ha]))]

/-! ## Rolling-mean window lemmas -/

theorem rollingMeanO_getElem? (w : ℕ) (xs : List (Option ℚ)) (i : ℕ) (hi : i < xs.length) :
    (rollingMeanO w xs)[i]? = some (
      if i + 1 < w then none
      else if ((xs.drop (i + 1 - w)).take w).all Option.isSome
        then some ((((xs.drop (i + 1 - w)).take w).filterMap id).sum / (w : ℚ))
      else none) := by
  rw [rollingMeanO, List.getElem?_map, List.getElem?_range hi, Option.map_some']

theorem rollingMeanO_getElem?_of_lt (w : ℕ) (xs : List (Option ℚ)) (i : ℕ)
    (hi : i < xs.length) (hw : i + 1 < w) :
    (rollingMeanO w xs)[i]? = some none := by
  rw [rollingMeanO_getElem? w xs i hi, if_pos hw]

theorem rollingMeanO_getElem?_of_none (w : ℕ) (xs : List (Option ℚ)) (i : ℕ)
    (hi : i < xs.length) (hw : w ≤ i + 1) (j : ℕ) (hj1 : i + 1 - w ≤ j) (hj2 : j ≤ i)
    (hnone : xs[j]? = some none) :
    (rollingMeanO w xs)[i]? = some none := by
  have hwin : ((xs.drop (i + 1 - w)).take w)[j - (i + 1 - w)]? = some none := by
    rw [List.getElem?_take_of_lt (by omega), List.getElem?_drop]
    rw [show i + 1 - w + (j - (i + 1 - w)) = j from by omega]
    exact hnone
  have hall : ((xs.drop (i + 1 - w)).take w).all Option.isSome = false := by
    rw [List.all_eq_false]
    exact ⟨none, List.getElem?_mem hwin, by simp⟩
  rw [rollingMeanO_getElem? w xs i hi, if_neg (by omega), hall]
  simp

theorem rollingMeanO_getElem?_of_all (w : ℕ) (xs : List (Option ℚ)) (i : ℕ)
    (hi : i < xs.length) (hw : w ≤ i + 1) (f : ℕ → ℚ)
    (hf : ∀ j, i + 1 - w ≤ j → j ≤ i → xs[j]? = some (some (f j))) :
    (rollingMeanO w xs)[i]? =
      some (some ((((List.range w).map (fun j => f (i + 1 - w + j))).sum) / (w : ℚ))) := by
  have hwin : (xs.drop (i + 1 - w)).take w
      = (List.range w).map (fun k => some (f (i + 1 - w + k))) := by
    apply List.ext_getElem?
    intro k
    by_cases hk : k < w
    · rw [List.getElem?_take_of_lt hk, List.getElem?_drop,
        List.getElem?_map, List.getElem?_range hk]
      simpa using hf (i + 1 - w + k) (by omega) (by omega)
    · rw [List.getElem?_eq_none, List.getElem?_eq_none]
      · simp only [List.length_map, List.length_range]
        omega
      · simp only [List.length_take, List.length_drop]
        omega
  have hall : ((xs.drop (i + 1 - w)).take w).all Option.isSome = true := by
    rw [hwin, List.all_eq_true]
    intro x hx
    rcases List.mem_map.mp hx with ⟨k, _, rfl⟩
    simp
  have hfm : ((xs.drop (i + 1 - w)).take w).filterMap id
      = (List.range w).map (fun k => f (i + 1 - w + k)) := by
    rw [hwin, List.filterMap_map]
    exact congrFun (List.filterMap_eq_map (fun k => f (i + 1 - w + k))) (List.range w)
  rw [rollingMeanO_getElem? w xs i hi, if_neg (by omega), hall, hfm]
  simp

end StarSim

namespace StarSim

/-! ## Claim C10 -/

/-- Claim C10: for every pair of ranked score lists (including the empty
list), create_moderate_portfolio and create_conservative_portfolio
return identical allocation maps — the output is a fixed table
independent of the input — and in each returned map the weights sum
exactly to 1 (moderate: 4 x 0.125 + 6 x 0.05 + 0.10 + 0.05 + 0.05;
conservative: 8 x 0.05 + 0.25 + 0.15 + 0.20). -/
theorem C10_fixed_tables (s1 s2 : List (String × ℚ)) :
    create_moderate_portfolio s1 = create_moderate_portfolio s2
    ∧ create_conservative_portfolio s1 = create_conservative_portfolio s2
    ∧ ((create_moderate_portfolio s1).map Prod.snd).sum = 1
    ∧ ((create_conservative_portfolio s1).map Prod.snd).sum = 1 := by
  refine ⟨rfl, rfl, ?_, ?_⟩
  · simp [create_moderate_portfolio]
    norm_num
  · simp [create_conservative_portfolio]
    norm_num

/-! ## Claim C9 -/

/-- Claim C9: for every close series of any length, the SMA_20 column is
the undefined sentinel at every index i < 19 and equals the arithmetic
mean of close over indices i-19..i at every index 19 <= i; analogously
SMA_50 with window 50. -/
theorem C9_sma_trailing_mean (close : List ℚ) (i : ℕ) (hi : i < close.length) :
    (i < 19 → (SMA_20 close)[i]? = some none)
    ∧ (19 ≤ i → (SMA_20 close)[i]? =
        some (some ((((List.range 20).map (fun j => close.getD (i - 19 + j) 0)).sum) / 20)))
    ∧ (i < 49 → (SMA_50 close)[i]? = some none)
    ∧ (49 ≤ i → (SMA_50 close)[i]? =
        some (some ((((List.range 50).map (fun j => close.getD (i - 49 + j) 0)).sum) / 50))) := by
  have hlen : (close.map some).length = close.length := by simp
  have hval : ∀ j, j ≤ i → (close.map some)[j]? = some (some (close.getD j 0)) := by
    intro j hj
    rw [List.getElem?_map, getElem?_eq_some_getD (by omega)]
    simp
  refine ⟨?_, ?_, ?_, ?_⟩
  · intro h
    exact rollingMeanO_getElem?_of_lt 20 _ i (by omega) (by omega)
  · intro h
    have := rollingMeanO_getElem?_of_all 20 (close.map some) i (by omega) (by omega)
      (fun j => close.getD j 0) (fun j _ hj2 => hval j hj2)
    rw [show i + 1 - 20 = i - 19 from by omega] at this
    exact this
  · intro h
    exact rollingMeanO_getElem?_of_lt 50 _ i (by omega) (by omega)
  · intro h
    have := rollingMeanO_getElem?_of_all 50 (close.map some) i (by omega) (by omega)
      (fun j => close.getD j 0) (fun j _ hj2 => hval j hj2)
    rw [show i + 1 - 50 = i - 49 from by omega] at this
    exact this

/-- Witness for C9 at a concrete series: a 60-observation constant
series, checked at indices 10 (undefined) and 49 (defined window). -/
theorem C9_sma_trailing_mean_witness :
    (SMA_20 (List.replicate 60 (5 : ℚ)))[10]? = some none
    ∧ (SMA_50 (List.replicate 60 (5 : ℚ)))[49]? =
        some (some ((((List.range 50).map
          (fun j => (List.replicate 60 (5 : ℚ)).getD (49 - 49 + j) 0)).sum) / 50)) :=
  ⟨(C9_sma_trailing_mean (List.replicate 60 (5 : ℚ)) 10 (by simp)).1 (by omega),
   (C9_sma_trailing_mean (List.replicate 60 (5 : ℚ)) 49 (by simp)).2.2.2 (by omega)⟩

end StarSim

namespace StarSim

/-! ## Association-list lookup lemmas -/

theorem lookup_append (s : String) (l1 l2 : List (String × ℚ)) :
    (l1 ++ l2).lookup s =
      match l1.lookup s with
      | some v => some v
      | none => l2.lookup s := by
  induction l1 with
  | nil => simp [List.lookup]
  | cons p t ih =>
    rcases p with ⟨k, v⟩
    by_cases h : s = k
    · simp [List.lookup, h]
    · have hb : (s == k) = false := by simp [h]
      simp [List.lookup, hb, ih]

theorem lookup_map_const (s : String) (l : List String) (c : ℚ) :
    (l.map (fun x => (x, c))).lookup s = if s ∈ l then some c else none := by
  induction l with
  | nil => simp [List.lookup]
  | cons x t ih =>
    by_cases h : s = x
    · simp [List.lookup, h]
    · have hb : (s == x) = false := by simp [h]
      simp [List.lookup, hb, ih, h]

theorem any_eq_of_map_fst_eq {l l' : List (String × ℚ)}
    (h : l.map Prod.fst = l'.map Prod.fst) (t : String) :
    l.any (fun p => t == p.1) = l'.any (fun p => t == p.1) := by
  induction l generalizing l' with
  | nil =>
    cases l' with
    | nil => rfl
    | cons q v => simp at h
  | cons p u ih =>
    cases l' with
    | nil => simp at h
    | cons q v =>
      simp only [List.map_cons, List.cons.injEq] at h
      simp [List.any_cons, h.1, ih h.2]

/-! ## Claim C8 -/

/-- Claim C8: for every descending-ranked score list, the aggressive
allocation assigns weight exactly 0.10 to a symbol precisely when it is
the fixed cash entry or both on the hard-coded growth watchlist and
among the first 15 entries of the ranked list; QQQ, ARKK and CASH get
the fixed weights 0.15, 0.05 and 0.10; and the allocation depends only
on the names in the ranked list, never on score magnitudes. -/
theorem C8_aggressive_allocation (ss : List (String × ℚ)) (s : String) :
    ((create_aggressive_portfolio ss).lookup s = some (1 / 10) ↔
      (s = "CASH" ∨ (s ∈ growth_stocks ∧ s ∈ (ss.take 15).map Prod.fst)))
    ∧ (create_aggressive_portfolio ss).lookup "QQQ" = some (3 / 20)
    ∧ (create_aggressive_portfolio ss).lookup "ARKK" = some (1 / 20)
    ∧ (create_aggressive_portfolio ss).lookup "CASH" = some (1 / 10)
    ∧ (∀ ss' : List (String × ℚ), ss.map Prod.fst = ss'.map Prod.fst →
        create_aggressive_portfolio ss = create_aggressive_portfolio ss') := by
  have hpred : ∀ t : String,
      ((ss.take 15).any (fun p => t == p.1) = true) ↔ t ∈ (ss.take 15).map Prod.fst := by
    intro t
    rw [List.any_eq_true]
    constructor
    · rintro ⟨p, hp, he⟩
      exact List.mem_map.mpr ⟨p, hp, (beq_iff_eq.mp he).symm⟩
    · intro ht
      rcases List.mem_map.mp ht with ⟨p, hp, he⟩
      exact ⟨p, hp, beq_iff_eq.mpr he.symm⟩
  have hG : ∀ t : String,
      t ∈ growth_stocks.filter (fun x => (ss.take 15).any (fun p => x == p.1)) ↔
        (t ∈ growth_stocks ∧ t ∈ (ss.take 15).map Prod.fst) := by
    intro t
    rw [List.mem_filter, hpred]
  have hsplit : ∀ t : String, (create_aggressive_portfolio ss).lookup t =
      match ((growth_stocks.filter (fun x => (ss.take 15).any (fun p => x == p.1))).map
          (fun x => (x, (1 : ℚ) / 10))).lookup t with
      | some v => some v
      | none => ([("QQQ", (3 : ℚ) / 20), ("ARKK", 1 / 20), ("CASH", 1 / 10)]).lookup t :=
    fun t => lookup_append t _ _
  have hQg : ("QQQ" ∈ growth_stocks) = False := by simp [growth_stocks]
  have hAg : ("ARKK" ∈ growth_stocks) = False := by simp [growth_stocks]
  have hCg : ("CASH" ∈ growth_stocks) = False := by simp [growth_stocks]
  refine ⟨?_, ?_, ?_, ?_, ?_⟩
  · rw [hsplit s, lookup_map_const]
    by_cases hs : s ∈ growth_stocks.filter (fun x => (ss.take 15).any (fun p => x == p.1))
    · rw [if_pos hs]
      simp only [Option.some.injEq]
      constructor
      · intro _
        exact Or.inr ((hG s).mp hs)
      · intro _
        trivial
    · rw [if_neg hs]
      by_cases hc : s = "CASH"
      · subst hc
        simp [List.lookup]
      · constructor
        · intro hl
          by_cases hq : s = "QQQ"
          · subst hq
            simp [List.lookup] at hl
            exact absurd hl (by norm_num)
          · by_cases ha : s = "ARKK"
            · subst ha
              simp [List.lookup] at hl
            · have hbq : (s == "QQQ") = false := by simp [hq]
              have hba : (s == "ARKK") = false := by simp [ha]
              have hbc : (s == "CASH") = false := by simp [hc]
              simp [List.lookup, hbq, hba, hbc] at hl
        · rintro (h | h)
          · exact absurd h hc
          · exact absurd ((hG s).mpr h) hs
  · rw [hsplit "QQQ", lookup_map_const, if_neg (by rw [hG]; simp [hQg])]
    simp [List.lookup]
  · rw [hsplit "ARKK", lookup_map_const, if_neg (by rw [hG]; simp [hAg])]
    simp [List.lookup]
  · rw [hsplit "CASH", lookup_map_const, if_neg (by rw [hG]; simp [hCg])]
    simp [List.lookup]
  · intro ss' h
    have h15 : (ss.take 15).map Prod.fst = (ss'.take 15).map Prod.fst := by
      rw [List.map_take, List.map_take, h]
    have hany : ∀ t : String,
        ((ss.take 15).any (fun p => t == p.1)) = ((ss'.take 15).any (fun p => t == p.1)) :=
      fun t => any_eq_of_map_fst_eq h15 t
    have hfil : growth_stocks.filter (fun x => (ss.take 15).any (fun p => x == p.1))
        = growth_stocks.filter (fun x => (ss'.take 15).any (fun p => x == p.1)) :=
      List.filter_congr (fun x _ => hany x)
    simp only [create_aggressive_portfolio, hfil]

/-- Witness for C8 at a concrete ranked list: NVDA is on the watchlist
and ranked first, so it gets weight 0.10; changing only the scores
leaves the allocation unchanged. -/
theorem C8_aggressive_allocation_witness :
    (create_aggressive_portfolio [("NVDA", (5 : ℚ))]).lookup "NVDA" = some (1 / 10)
    ∧ create_aggressive_portfolio [("NVDA", (5 : ℚ))]
        = create_aggressive_portfolio [("NVDA", (7 : ℚ))] :=
  ⟨(C8_aggressive_allocation [("NVDA", (5 : ℚ))] "NVDA").1.mpr
      (Or.inr ⟨by simp [growth_stocks], by simp⟩),
   (C8_aggressive_allocation [("NVDA", (5 : ℚ))] "NVDA").2.2.2.2
      [("NVDA", (7 : ℚ))] (by simp)⟩

end StarSim

namespace StarSim

/-! ## Claim C1 -/

theorem eq_of_mem_of_nodup_keys {data : List (String × List ℚ)}
    (hnd : (data.map Prod.fst).Nodup) {s : String} {a b : List ℚ}
    (ha : (s, a) ∈ data) (hb : (s, b) ∈ data) : a = b := by
  induction data with
  | nil => cases ha
  | cons p t ih =>
    simp only [List.map_cons, List.nodup_cons] at hnd
    rcases List.mem_cons.mp ha with ha1 | ha1
    · rcases List.mem_cons.mp hb with hb1 | hb1
      · rw [← ha1] at hb1
        exact (Prod.mk.injEq _ _ _ _ ▸ hb1).2.symm
      · exfalso
        apply hnd.1
        rw [← ha1]
        exact List.mem_map.mpr ⟨(s, b), hb1, rfl⟩
    · rcases List.mem_cons.mp hb with hb1 | hb1
      · exfalso
        apply hnd.1
        rw [← hb1]
        exact List.mem_map.mpr ⟨(s, a), ha1, rfl⟩
      · exact ih hnd.2 ha1 hb1

/-- Counterexample to claim C1: a symbol whose series has exactly 252
observations is NOT included — the source gate is len(df) > 252, so the
risk-metrics map for a single such symbol is empty, while the claim says
a series of exactly 252 observations is included. -/
theorem C1_counterexample_exact252 :
    generate_risk_metrics [("A", List.replicate 252 (100 : ℚ))] = [] := by
  simp [generate_risk_metrics]

/-- Claim C1 (amended): generate_risk_metrics computes the RiskMetrics
record exactly for symbols with MORE than 252 observations (at least
253, i.e. at least 252 returns); a series with 252 or fewer
observations — in particular exactly 252 — is excluded from the output
map, with no error raised. -/
theorem C1_risk_history_gate (data : List (String × List ℚ))
    (hnd : (data.map Prod.fst).Nodup) (s : String) (ser : List ℚ)
    (hmem : (s, ser) ∈ data) :
    (252 < ser.length ↔ s ∈ (generate_risk_metrics data).map Prod.fst)
    ∧ (252 < ser.length → (s, mkRiskMetrics ser) ∈ generate_risk_metrics data) := by
  have hkeys : (generate_risk_metrics data).map Prod.fst
      = (data.filter (fun p => 252 < p.2.length)).map Prod.fst := by
    rw [generate_risk_metrics, List.map_map]
    rfl
  constructor
  · constructor
    · intro hlen
      rw [hkeys]
      exact List.mem_map.mpr
        ⟨(s, ser), List.mem_filter.mpr ⟨hmem, by simpa using hlen⟩, rfl⟩
    · intro hmem2
      rw [hkeys] at hmem2
      rcases List.mem_map.mp hmem2 with ⟨p, hp, hps⟩
      have hpd := List.mem_filter.mp hp
      have hser : p.2 = ser := by
        apply eq_of_mem_of_nodup_keys hnd _ hmem
        rw [show (s, p.2) = p from by rw [← hps]]
        exact hpd.1
      rw [← hser]
      simpa using hpd.2
  · intro hlen
    rw [generate_risk_metrics]
    exact List.mem_map.mpr
      ⟨(s, ser), List.mem_filter.mpr ⟨hmem, by simpa using hlen⟩, rfl⟩

/-- Witness for C1 at a concrete input: a single symbol with 253
observations passes the gate and appears in the output map. -/
theorem C1_risk_history_gate_witness :
    (List.map Prod.fst [("A", List.replicate 253 (100 : ℚ))]).Nodup
    ∧ (252 < (List.replicate 253 (100 : ℚ)).length ↔
        "A" ∈ (generate_risk_metrics [("A", List.replicate 253 (100 : ℚ))]).map Prod.fst) :=
  ⟨by simp,
   (C1_risk_history_gate [("A", List.replicate 253 (100 : ℚ))] (by simp) "A"
      (List.replicate 253 (100 : ℚ)) (by simp)).1⟩

end StarSim

namespace StarSim

/-! ## Claim C3 -/

theorem ewmAdjustAux_length (a : ℚ) :
    ∀ (xs : List ℚ) (num den : ℚ), (ewmAdjustAux a num den xs).length = xs.length := by
  intro xs
  induction xs with
  | nil => intro num den; rfl
  | cons x rest ih => intro num den; simp [ewmAdjustAux, ih]

theorem ewmSpecNum_cons (a x : ℚ) (rest : List ℚ) (k : ℕ) :
    ewmSpecNum a (x :: rest) (k + 1) = ewmSpecNum a rest k + (1 - a) ^ (k + 1) * x := by
  rw [ewmSpecNum, ewmSpecNum, List.range_succ, List.map_append, List.sum_append]
  congr 1
  · apply map_sum_congr
    intro j hj
    have hjk : j ≤ k := by
      have := List.mem_range.mp hj
      omega
    rw [show k + 1 - j = (k - j) + 1 from by omega, List.getD_cons_succ]
  · simp

theorem ewmSpecDen_succ (a : ℚ) (k : ℕ) :
    ewmSpecDen a (k + 1) = ewmSpecDen a k + (1 - a) ^ (k + 1) := by
  rw [ewmSpecDen, ewmSpecDen, List.range_succ, List.map_append, List.sum_append]
  simp

theorem ewmAdjustAux_getElem? (a : ℚ) :
    ∀ (xs : List ℚ) (num den : ℚ) (i : ℕ), i < xs.length →
      (ewmAdjustAux a num den xs)[i]? =
        some ((ewmSpecNum a xs i + (1 - a) ^ (i + 1) * num) /
          (ewmSpecDen a i + (1 - a) ^ (i + 1) * den)) := by
  intro xs
  induction xs with
  | nil =>
    intro num den i h
    simp at h
  | cons x rest ih =>
    intro num den i h
    cases i with
    | zero =>
      rw [ewmAdjustAux, List.getElem?_cons_zero]
      rw [show ewmSpecNum a (x :: rest) 0 = x from by
        simp [ewmSpecNum, (show List.range 1 = [0] from by decide)]]
      rw [show ewmSpecDen a 0 = 1 from by simp [ewmSpecDen, (show List.range 1 = [0] from by decide)]]
      norm_num
    | succ k =>
      rw [ewmAdjustAux, List.getElem?_cons_succ, ih _ _ k (by simpa using h)]
      rw [ewmSpecNum_cons, ewmSpecDen_succ]
      congr 1
      ring

/-- Counterexample to claim C3: on the close series [100, 102] the
EMA_12 column is [100, 1213/12] (pandas ewm default adjust=True), but
the claimed seeded recurrence a*close_1 + (1-a)*ema_0 with a = 2/13
gives 1304/13, a different number. -/
theorem C3_counterexample_recurrence :
    (EMA_12 [100, 102])[0]? = some 100
    ∧ (EMA_12 [100, 102])[1]? = some (1213 / 12)
    ∧ (1213 / 12 : ℚ) ≠ 2 / 13 * 102 + (1 - 2 / 13) * 100 := by
  refine ⟨?_, ?_, by norm_num⟩
  · show ((EMA_12 [100, 102])[0]?) = some 100
    norm_num [EMA_12, ewm_mean, ewmAdjustAux]
  · show ((EMA_12 [100, 102])[1]?) = some (1213 / 12)
    norm_num [EMA_12, ewm_mean, ewmAdjustAux]

/-- Claim C3 (amended): the EMA_12 and EMA_26 columns are the pandas
adjust-weighted averages: every entry i equals
(sum of (1-a)^j*close_(i-j) for j = 0..i) / (sum of (1-a)^j for
j = 0..i) with a = 2/(span+1) (2/13 and 2/27), the seed ema_0 = close_0
holds, and every entry from index 0 onward is defined (output length
equals input length); the plain recurrence
ema_i = a*close_i + (1-a)*ema_(i-1) does NOT hold from index 1 on. -/
theorem C3_ema_adjust_weighted (xs : List ℚ) (i : ℕ) (hi : i < xs.length) :
    (EMA_12 xs).length = xs.length
    ∧ (EMA_26 xs).length = xs.length
    ∧ (EMA_12 xs)[i]? = some (ewmSpecNum (2 / 13) xs i / ewmSpecDen (2 / 13) i)
    ∧ (EMA_26 xs)[i]? = some (ewmSpecNum (2 / 27) xs i / ewmSpecDen (2 / 27) i)
    ∧ (∀ x0 rest, xs = x0 :: rest →
        (EMA_12 xs)[0]? = some x0 ∧ (EMA_26 xs)[0]? = some x0) := by
  have ha12 : (2 : ℚ) / (((12 : ℕ) : ℚ) + 1) = 2 / 13 := by norm_num
  have ha26 : (2 : ℚ) / (((26 : ℕ) : ℚ) + 1) = 2 / 27 := by norm_num
  have h12 : ∀ j, j < xs.length →
      (EMA_12 xs)[j]? = some (ewmSpecNum (2 / 13) xs j / ewmSpecDen (2 / 13) j) := by
    intro j hj
    rw [EMA_12, ewm_mean, ha12, ewmAdjustAux_getElem? (2 / 13) xs 0 0 j hj]
    norm_num
  have h26 : ∀ j, j < xs.length →
      (EMA_26 xs)[j]? = some (ewmSpecNum (2 / 27) xs j / ewmSpecDen (2 / 27) j) := by
    intro j hj
    rw [EMA_26, ewm_mean, ha26, ewmAdjustAux_getElem? (2 / 27) xs 0 0 j hj]
    norm_num
  refine ⟨by rw [EMA_12, ewm_mean]; exact ewmAdjustAux_length _ xs 0 0,
    by rw [EMA_26, ewm_mean]; exact ewmAdjustAux_length _ xs 0 0,
    h12 i hi, h26 i hi, ?_⟩
  intro x0 rest hx
  have h0 : 0 < xs.length := by rw [hx]; simp
  have e12 := h12 0 h0
  have e26 := h26 0 h0
  rw [hx] at e12 e26
  rw [show ewmSpecNum (2 / 13 : ℚ) (x0 :: rest) 0 = x0 from by
      simp [ewmSpecNum, (show List.range 1 = [0] from by decide)],
    show ewmSpecDen (2 / 13 : ℚ) 0 = 1 from by simp [ewmSpecDen, (show List.range 1 = [0] from by decide)]] at e12
  rw [show ewmSpecNum (2 / 27 : ℚ) (x0 :: rest) 0 = x0 from by
      simp [ewmSpecNum, (show List.range 1 = [0] from by decide)],
    show ewmSpecDen (2 / 27 : ℚ) 0 = 1 from by simp [ewmSpecDen, (show List.range 1 = [0] from by decide)]] at e26
  rw [hx]
  norm_num at e12 e26
  exact ⟨e12, e26⟩

/-- Witness for C3 at a concrete series: the two-point series
[100, 102], entry 1 and the seed at entry 0. -/
theorem C3_ema_adjust_weighted_witness :
    (EMA_12 [(100 : ℚ), 102])[1]? =
      some (ewmSpecNum (2 / 13) [(100 : ℚ), 102] 1 / ewmSpecDen (2 / 13) 1)
    ∧ ((EMA_12 [(100 : ℚ), 102])[0]? = some 100
        ∧ (EMA_26 [(100 : ℚ), 102])[0]? = some 100) :=
  ⟨(C3_ema_adjust_weighted [100, 102] 1 (by simp)).2.2.1,
   (C3_ema_adjust_weighted [100, 102] 1 (by simp)).2.2.2.2 100 [102] rfl⟩

end StarSim

namespace StarSim

/-! ## Claim C4 -/

/-- Counterexample to claim C4: on the strictly increasing close series
1..14, at index 13 the 14-period loss mean is 0 and the gain mean is
13/14 > 0, yet the RSI entry is the FINITE value 100 (pandas:
gain/0 = +inf, 100 - 100/(1 + inf) = 100), not an undefined sentinel. -/
theorem C4_counterexample_rsi100 :
    (lossCol [1, 2, 3, 4, 5, 6, 7, 8, 9, 10, 11, 12, 13, 14])[13]? = some (some 0)
    ∧ (gainCol [1, 2, 3, 4, 5, 6, 7, 8, 9, 10, 11, 12, 13, 14])[13]? = some (some (13 / 14))
    ∧ (rsiCol [1, 2, 3, 4, 5, 6, 7, 8, 9, 10, 11, 12, 13, 14])[13]? = some (FV.fin 100) := by
  refine ⟨?_, ?_, ?_⟩
  · simp [lossCol, losses, diffL, rollingMeanO,
      (by decide : List.range 14 = [0, 1, 2, 3, 4, 5, 6, 7, 8, 9, 10, 11, 12, 13])]
    norm_num
  · simp [gainCol, gains, diffL, rollingMeanO,
      (by decide : List.range 14 = [0, 1, 2, 3, 4, 5, 6, 7, 8, 9, 10, 11, 12, 13])]
    norm_num
  · simp [rsiCol, rsCol, gainCol, lossCol, gains, losses, diffL, rollingMeanO,
      (by decide : List.range 14 = [0, 1, 2, 3, 4, 5, 6, 7, 8, 9, 10, 11, 12, 13])]
    norm_num [oFV, FV.div, FV.add, FV.sub, FV.neg]

/-- Claim C4 (amended): at an index where the 14-period loss mean is 0,
the RSI column holds the NaN sentinel exactly when the gain mean is
also 0 (0/0 then propagates); when the gain mean is positive the column
instead holds the finite value 100 (gain/0 = +inf and
100 - 100/(1 + inf) = 100), not a sentinel. No crash occurs in either
case. -/
theorem C4_rsi_zero_loss (close : List ℚ) (i : ℕ)
    (hloss : (lossCol close)[i]? = some (some 0)) :
    ((gainCol close)[i]? = some (some 0) → (rsiCol close)[i]? = some FV.nan)
    ∧ (∀ g : ℚ, (gainCol close)[i]? = some (some g) → 0 < g →
        (rsiCol close)[i]? = some (FV.fin 100)) := by
  constructor
  · intro hgain
    have hrs : (rsCol close)[i]? = some (FV.div (oFV (some 0)) (oFV (some 0))) :=
      getElem?_zipWith_some _ _ _ i _ _ hgain hloss
    have hv : FV.div (oFV (some (0 : ℚ))) (oFV (some (0 : ℚ))) = FV.nan := by
      simp [oFV, FV.div]
    rw [rsiCol, List.getElem?_map, hrs, hv]
    simp [FV.sub, FV.add, FV.neg, FV.div]
  · intro g hgain hg
    have hrs : (rsCol close)[i]? = some (FV.div (oFV (some g)) (oFV (some 0))) :=
      getElem?_zipWith_some _ _ _ i _ _ hgain hloss
    have hv : FV.div (oFV (some g)) (oFV (some (0 : ℚ))) = FV.pinf := by
      simp [oFV, FV.div, hg, hg.ne']
    rw [rsiCol, List.getElem?_map, hrs, hv]
    simp [FV.sub, FV.add, FV.neg, FV.div]

/-- Witness for C4 at concrete series: the strictly increasing series
gives RSI = 100 at index 13; the constant series gives the NaN
sentinel there. -/
theorem C4_rsi_zero_loss_witness :
    (rsiCol [(1 : ℚ), 2, 3, 4, 5, 6, 7, 8, 9, 10, 11, 12, 13, 14])[13]? = some (FV.fin 100)
    ∧ (rsiCol [(1 : ℚ), 1, 1, 1, 1, 1, 1, 1, 1, 1, 1, 1, 1, 1])[13]? = some FV.nan := by
  constructor
  · apply (C4_rsi_zero_loss [(1 : ℚ), 2, 3, 4, 5, 6, 7, 8, 9, 10, 11, 12, 13, 14] 13 ?_).2
      (13 / 14) ?_ (by norm_num)
    · simp [lossCol, losses, diffL, rollingMeanO,
        (by decide : List.range 14 = [0, 1, 2, 3, 4, 5, 6, 7, 8, 9, 10, 11, 12, 13])]
      norm_num
    · simp [gainCol, gains, diffL, rollingMeanO,
        (by decide : List.range 14 = [0, 1, 2, 3, 4, 5, 6, 7, 8, 9, 10, 11, 12, 13])]
      norm_num
  · apply (C4_rsi_zero_loss [(1 : ℚ), 1, 1, 1, 1, 1, 1, 1, 1, 1, 1, 1, 1, 1] 13 ?_).1 ?_
    · simp [lossCol, losses, diffL, rollingMeanO,
        (by decide : List.range 14 = [0, 1, 2, 3, 4, 5, 6, 7, 8, 9, 10, 11, 12, 13])]
    · simp [gainCol, gains, diffL, rollingMeanO,
        (by decide : List.range 14 = [0, 1, 2, 3, 4, 5, 6, 7, 8, 9, 10, 11, 12, 13])]

end StarSim

namespace StarSim

/-! ## Claim C6 -/

theorem shift1_length (xs : List ℚ) : (shift1 xs).length = xs.length := by
  cases xs with
  | nil => rfl
  | cons x t => simp [shift1]

theorem shift1_getElem?_zero (xs : List ℚ) (h : 0 < xs.length) :
    (shift1 xs)[0]? = some none := by
  cases xs with
  | nil => simp at h
  | cons x t => simp [shift1]

theorem shift1_getElem?_succ (xs : List ℚ) (k : ℕ) (h : k + 1 < xs.length) :
    (shift1 xs)[k + 1]? = some (some (xs.getD k 0)) := by
  cases xs with
  | nil => simp at h
  | cons x t =>
    rw [shift1, List.getElem?_cons_succ, List.getElem?_map, List.getElem?_dropLast,
      if_pos (by simpa using h), getElem?_eq_some_getD (by omega)]
    rfl

theorem trList_length (high low close : List ℚ)
    (hh : high.length = close.length) (hl : low.length = close.length) :
    (trList high low close).length = close.length := by
  simp [trList, shift1_length, hh, hl]

/-- Counterexample to claim C6: on the single bar high 10, low 8,
close 9, the TR entry at index 0 is NaN — close.shift(1) is NaN there
and np.maximum propagates it — not the claimed fallback high - low = 2. -/
theorem C6_counterexample_tr0 :
    (trList [10] [8] [9])[0]? = some none
    ∧ some (none : Option ℚ) ≠ some (some ((10 : ℚ) - 8)) :=
  ⟨by simp [trList, shift1], by simp⟩

/-- Claim C6 (amended): TR at index 0 is the undefined sentinel (the
first observation has no prior close and np.maximum propagates the
NaN), TR_i = max(high_i - low_i, abs(high_i - close_(i-1)),
abs(low_i - close_(i-1))) for every 1 <= i, and ATR, the 14-period
trailing mean of TR, is undefined at every index below 14 (its window
would contain the undefined TR_0) and from index 14 on equals the mean
of the 14 trailing TR values. -/
theorem C6_true_range (high low close : List ℚ)
    (hh : high.length = close.length) (hl : low.length = close.length) :
    (0 < close.length → (trList high low close)[0]? = some none)
    ∧ (∀ i, 1 ≤ i → i < close.length →
        (trList high low close)[i]? = some (some (trVal high low close i)))
    ∧ (∀ i, i < 14 → i < close.length → (atrList high low close)[i]? = some none)
    ∧ (∀ i, 14 ≤ i → i < close.length → (atrList high low close)[i]? =
        some (some ((((List.range 14).map
          (fun j => trVal high low close (i + 1 - 14 + j))).sum) / 14))) := by
  have hzip : ∀ i, i < close.length →
      (high.zip low)[i]? = some (high.getD i 0, low.getD i 0) := by
    intro i hi
    exact getElem?_zipWith_some Prod.mk high low i _ _
      (getElem?_eq_some_getD (by omega)) (getElem?_eq_some_getD (by omega))
  have ha : 0 < close.length → (trList high low close)[0]? = some none := by
    intro h0
    rw [trList]
    rw [getElem?_zipWith_some _ _ _ 0 _ _ (hzip 0 h0) (shift1_getElem?_zero close h0)]
  have hb : ∀ i, 1 ≤ i → i < close.length →
      (trList high low close)[i]? = some (some (trVal high low close i)) := by
    intro i h1 hi
    obtain ⟨k, rfl⟩ : ∃ k, i = k + 1 := ⟨i - 1, by omega⟩
    rw [trList]
    rw [getElem?_zipWith_some _ _ _ (k + 1) _ _ (hzip (k + 1) hi)
      (shift1_getElem?_succ close k hi)]
    rw [trVal]
    rw [show k + 1 - 1 = k from by omega]
  have htr := trList_length high low close hh hl
  refine ⟨ha, hb, ?_, ?_⟩
  · intro i hi14 hi
    by_cases hlt : i + 1 < 14
    · exact rollingMeanO_getElem?_of_lt 14 _ i (by omega) hlt
    · exact rollingMeanO_getElem?_of_none 14 _ i (by omega) (by omega) 0 (by omega)
        (by omega) (ha (by omega))
  · intro i hi14 hi
    exact rollingMeanO_getElem?_of_all 14 _ i (by omega) (by omega)
      (trVal high low close) (fun j hj1 hj2 => hb j (by omega) (by omega))

/-- Witness for C6 at concrete 15-bar series (constant high 3, low 1,
close 2), checked at indices 0, 1, 13 and 14. -/
theorem C6_true_range_witness :
    (trList (List.replicate 15 (3 : ℚ)) (List.replicate 15 (1 : ℚ))
        (List.replicate 15 (2 : ℚ)))[0]? = some none
    ∧ (trList (List.replicate 15 (3 : ℚ)) (List.replicate 15 (1 : ℚ))
        (List.replicate 15 (2 : ℚ)))[1]? = some (some (trVal (List.replicate 15 (3 : ℚ))
          (List.replicate 15 (1 : ℚ)) (List.replicate 15 (2 : ℚ)) 1))
    ∧ (atrList (List.replicate 15 (3 : ℚ)) (List.replicate 15 (1 : ℚ))
        (List.replicate 15 (2 : ℚ)))[13]? = some none
    ∧ (atrList (List.replicate 15 (3 : ℚ)) (List.replicate 15 (1 : ℚ))
        (List.replicate 15 (2 : ℚ)))[14]? =
        some (some ((((List.range 14).map (fun j => trVal (List.replicate 15 (3 : ℚ))
          (List.replicate 15 (1 : ℚ)) (List.replicate 15 (2 : ℚ)) (14 + 1 - 14 + j))).sum) / 14)) := by
  have H := C6_true_range (List.replicate 15 (3 : ℚ)) (List.replicate 15 (1 : ℚ))
    (List.replicate 15 (2 : ℚ)) (by simp) (by simp)
  exact ⟨H.1 (by simp), H.2.1 1 (by omega) (by simp), H.2.2.1 13 (by omega) (by simp),
    H.2.2.2 14 (by omega) (by simp)⟩

end StarSim

namespace StarSim

/-! ## Claim C7 -/

theorem cumprodSkip_pos (xs : List (Option ℚ)) :
    ∀ (acc : ℚ), 0 < acc →
      (∀ x ∈ xs, ∀ v : ℚ, x = some v → 0 < v) →
      ∀ y ∈ cumprodSkip acc xs, ∀ v : ℚ, y = some v → 0 < v := by
  induction xs with
  | nil =>
    intro acc _ _ y hy
    simp [cumprodSkip] at hy
  | cons x t ih =>
    intro acc hacc hx y hy v hv
    cases x with
    | none =>
      simp only [cumprodSkip] at hy
      rcases List.mem_cons.mp hy with h | h
      · rw [h] at hv; cases hv
      · exact ih acc hacc (fun z hz => hx z (by simp [hz])) y h v hv
    | some a =>
      have ha : 0 < a := hx (some a) (by simp) a rfl
      simp only [cumprodSkip] at hy
      rcases List.mem_cons.mp hy with h | h
      · rw [h] at hv
        injection hv with hv2
        rw [← hv2]
        exact mul_pos hacc ha
      · exact ih (acc * a) (mul_pos hacc ha) (fun z hz => hx z (by simp [hz])) y h v hv

theorem drawdown_entries_nonpos (ys : List (Option ℚ)) :
    ∀ (macc : Option ℚ), (∀ v : ℚ, macc = some v → 0 < v) →
      (∀ y ∈ ys, ∀ v : ℚ, y = some v → 0 < v) →
      ∀ d ∈ List.zipWith ddEntry ys (expandingMaxAux macc ys),
        ∀ dv : ℚ, d = some dv → dv ≤ 0 := by
  induction ys with
  | nil =>
    intro macc _ _ d hd
    simp at hd
  | cons y t ih =>
    intro macc hmacc hys d hd dv hdv
    cases y with
    | none =>
      simp only [expandingMaxAux, List.zipWith_cons_cons] at hd
      rcases List.mem_cons.mp hd with h | h
      · rw [h] at hdv
        cases macc with
        | none => simp [ddEntry] at hdv
        | some m => simp [ddEntry] at hdv
      · exact ih macc hmacc (fun z hz => hys z (by simp [hz])) d h dv hdv
    | some c =>
      have hc : 0 < c := hys (some c) (by simp) c rfl
      cases macc with
      | none =>
        simp only [expandingMaxAux, List.zipWith_cons_cons] at hd
        rcases List.mem_cons.mp hd with h | h
        · rw [h] at hdv
          simp only [ddEntry, Option.some.injEq] at hdv
          rw [← hdv]
          simp
        · exact ih (some c) (fun v hv => by injection hv with h2; rw [← h2]; exact hc)
            (fun z hz => hys z (by simp [hz])) d h dv hdv
      | some m =>
        have hm : 0 < m := hmacc m rfl
        simp only [expandingMaxAux, List.zipWith_cons_cons] at hd
        rcases List.mem_cons.mp hd with h | h
        · rw [h] at hdv
          simp only [ddEntry, Option.some.injEq] at hdv
          rw [← hdv]
          have hle : c ≤ max m c := le_max_right m c
          have hmx : 0 < max m c := lt_of_lt_of_le hc hle
          exact div_nonpos_iff.mpr (Or.inr ⟨sub_nonpos.mpr hle, hmx.le⟩)
        · refine ih (some (max m c)) ?_ (fun z hz => hys z (by simp [hz])) d h dv hdv
          intro v hv
          injection hv with h2
          rw [← h2]
          exact lt_of_lt_of_le hc (le_max_right m c)

theorem drawdown_entries_zero (xs : List (Option ℚ)) :
    ∀ (acc : ℚ) (macc : Option ℚ), 0 < acc →
      (∀ x ∈ xs, ∀ v : ℚ, x = some v → 1 ≤ v) →
      (∀ v : ℚ, macc = some v → (0 < v ∧ v ≤ acc)) →
      ∀ d ∈ List.zipWith ddEntry (cumprodSkip acc xs)
          (expandingMaxAux macc (cumprodSkip acc xs)),
        ∀ dv : ℚ, d = some dv → dv = 0 := by
  induction xs with
  | nil =>
    intro acc macc _ _ _ d hd
    simp [cumprodSkip] at hd
  | cons x t ih =>
    intro acc macc hacc hxs hmacc d hd dv hdv
    cases x with
    | none =>
      simp only [cumprodSkip, expandingMaxAux, List.zipWith_cons_cons] at hd
      rcases List.mem_cons.mp hd with h | h
      · rw [h] at hdv
        cases macc with
        | none => cases hdv
        | some m => simp [ddEntry] at hdv
      · exact ih acc macc hacc (fun z hz => hxs z (by simp [hz])) hmacc d h dv hdv
    | some r =>
      have hr : 1 ≤ r := hxs (some r) (by simp) r rfl
      have hr0 : 0 < r := lt_of_lt_of_le one_pos hr
      have haccr : 0 < acc * r := mul_pos hacc hr0
      have hmono : acc ≤ acc * r := le_mul_of_one_le_right hacc.le hr
      cases macc with
      | none =>
        simp only [cumprodSkip, expandingMaxAux, List.zipWith_cons_cons] at hd
        rcases List.mem_cons.mp hd with h | h
        · rw [h] at hdv
          simp only [ddEntry, Option.some.injEq] at hdv
          rw [← hdv]
          simp
        · refine ih (acc * r) (some (acc * r)) haccr
            (fun z hz => hxs z (by simp [hz])) ?_ d h dv hdv
          intro v hv
          injection hv with h2
          rw [← h2]
          exact ⟨haccr, le_refl _⟩
      | some m =>
        obtain ⟨hm0, hmacc'⟩ := hmacc m rfl
        have hmx : max m (acc * r) = acc * r := max_eq_right (le_trans hmacc' hmono)
        simp only [cumprodSkip, expandingMaxAux, hmx, List.zipWith_cons_cons] at hd
        rcases List.mem_cons.mp hd with h | h
        · rw [h] at hdv
          simp only [ddEntry, Option.some.injEq] at hdv
          rw [← hdv]
          simp
        · refine ih (acc * r) (some (acc * r)) haccr
            (fun z hz => hxs z (by simp [hz])) ?_ d h dv hdv
          intro v hv
          injection hv with h2
          rw [← h2]
          exact ⟨haccr, le_refl _⟩

theorem foldl_minStep_nonpos (xs : List (Option ℚ)) :
    ∀ (a : ℚ), a ≤ 0 →
      (∀ x ∈ xs, ∀ v : ℚ, x = some v → v ≤ 0) →
      ∃ q : ℚ, List.foldl minStep (some a) xs = some q ∧ q ≤ 0 := by
  induction xs with
  | nil =>
    intro a ha _
    exact ⟨a, rfl, ha⟩
  | cons x t ih =>
    intro a ha hxs
    cases x with
    | none =>
      simpa [minStep] using ih a ha (fun z hz => hxs z (by simp [hz]))
    | some b =>
      have hb : b ≤ 0 := hxs (some b) (by simp) b rfl
      simpa [minStep] using
        ih (min a b) (le_trans (min_le_left a b) ha) (fun z hz => hxs z (by simp [hz]))

theorem foldl_minStep_zero (xs : List (Option ℚ)) :
    (∀ x ∈ xs, ∀ v : ℚ, x = some v → v = 0) →
    List.foldl minStep (some 0) xs = some 0 := by
  induction xs with
  | nil => intro _; rfl
  | cons x t ih =>
    intro hxs
    cases x with
    | none => simpa [minStep] using ih (fun z hz => hxs z (by simp [hz]))
    | some b =>
      have hb : b = 0 := hxs (some b) (by simp) b rfl
      rw [hb]
      simpa [minStep] using ih (fun z hz => hxs z (by simp [hz]))

theorem one_add_pct_mem (prices : List ℚ) :
    ∀ x ∈ (pct_change prices).map (Option.map (fun r => 1 + r)),
      x = none ∨ ∃ a b : ℚ, (a, b) ∈ prices.zip prices.tail ∧ x = some (1 + (b / a - 1)) := by
  intro x hx
  rcases List.mem_map.mp hx with ⟨d, hd, rfl⟩
  cases prices with
  | nil => simp [pct_change] at hd
  | cons p t =>
    simp only [pct_change] at hd
    rcases List.mem_cons.mp hd with h | h
    · rw [h]; left; rfl
    · rcases List.mem_map.mp h with ⟨pr, hpr, rfl⟩
      right
      exact ⟨pr.1, pr.2, hpr, rfl⟩

theorem chain'_zip_tail {r : ℚ → ℚ → Prop} :
    ∀ {l : List ℚ}, List.Chain' r l → ∀ p ∈ l.zip l.tail, r p.1 p.2 := by
  intro l
  induction l with
  | nil => intro _ p hp; simp at hp
  | cons x t ih =>
    intro h p hp
    cases t with
    | nil => simp at hp
    | cons y u =>
      rw [List.chain'_cons] at h
      simp only [List.tail_cons, List.zip_cons_cons] at hp
      rcases List.mem_cons.mp hp with h1 | h1
      · rw [h1]; exact h.1
      · exact ih h.2 p (by simpa using h1)

/-- Counterexample to claim C7: on the one-observation price series
[100] the function returns NaN (the drawdown series is all-NaN and
Series.min of it is NaN), which is not a value <= 0, while the claim
quantifies over every price series. -/
theorem C7_counterexample_singleton : calculate_max_drawdown [100] = none := by
  decide

/-- Claim C7 (amended): for every price series with at least 2
observations and positive prices, calculate_max_drawdown returns a
value <= 0 — the minimum over the defined entries (indices >= 1; entry
0 of the drawdown series is NaN and skipped) of
(cumulative - running_max)/running_max, cumulative the skipna
cumulative product of (1 + r) and running_max its expanding maximum —
and returns exactly 0 for every monotonically non-decreasing series;
for a series with fewer than 2 observations the result is NaN. -/
theorem C7_max_drawdown_nonpos (prices : List ℚ) (h2 : 2 ≤ prices.length)
    (hpos : ∀ p ∈ prices, 0 < p) :
    ∃ q : ℚ, calculate_max_drawdown prices = some q ∧ q ≤ 0
      ∧ (List.Chain' (fun a b => a ≤ b) prices → q = 0) := by
  rcases prices with _ | ⟨p0, rest0⟩
  · simp at h2
  rcases rest0 with _ | ⟨p1, rest⟩
  · simp at h2
  have hp0 : 0 < p0 := hpos p0 (by simp)
  have hMeq : (pct_change (p0 :: p1 :: rest)).map (Option.map (fun r => 1 + r))
      = none :: some (1 + (p1 / p0 - 1)) ::
        ((((p1 :: rest).zip rest).map (fun pr => some (pr.2 / pr.1 - 1))).map
          (Option.map (fun r => 1 + r))) := by
    simp [pct_change]
  have hMpos : ∀ x ∈ (pct_change (p0 :: p1 :: rest)).map (Option.map (fun r => 1 + r)),
      ∀ v : ℚ, x = some v → 0 < v := by
    intro x hx v hv
    rcases one_add_pct_mem (p0 :: p1 :: rest) x hx with h | ⟨a, b, hab, hx2⟩
    · rw [h] at hv; cases hv
    · rw [hx2] at hv
      injection hv with hv2
      have hmz := List.of_mem_zip hab
      have ha' : 0 < a := hpos a hmz.1
      have hb' : 0 < b := hpos b (List.mem_cons_of_mem p0 hmz.2)
      rw [← hv2, show 1 + (b / a - 1) = b / a from by ring]
      exact div_pos hb' ha'
  have hMtlpos : ∀ x ∈ ((((p1 :: rest).zip rest).map (fun pr => some (pr.2 / pr.1 - 1))).map
      (Option.map (fun r => 1 + r))), ∀ v : ℚ, x = some v → 0 < v := by
    intro x hx
    apply hMpos
    rw [hMeq]
    exact List.mem_cons_of_mem _ (List.mem_cons_of_mem _ hx)
  have he0 : 0 < 1 + (p1 / p0 - 1) := by
    apply hMpos (some (1 + (p1 / p0 - 1))) _ (1 + (p1 / p0 - 1)) rfl
    rw [hMeq]
    simp
  have he0' : 0 < 1 * (1 + (p1 / p0 - 1)) := by simpa using he0
  have hdd : List.zipWith ddEntry
      (cumprodSkip 1 ((pct_change (p0 :: p1 :: rest)).map (Option.map (fun r => 1 + r))))
      (expandingMaxAux none
        (cumprodSkip 1 ((pct_change (p0 :: p1 :: rest)).map (Option.map (fun r => 1 + r)))))
      = none :: some 0 ::
        List.zipWith ddEntry
          (cumprodSkip (1 * (1 + (p1 / p0 - 1)))
            ((((p1 :: rest).zip rest).map (fun pr => some (pr.2 / pr.1 - 1))).map
              (Option.map (fun r => 1 + r))))
          (expandingMaxAux (some (1 * (1 + (p1 / p0 - 1))))
            (cumprodSkip (1 * (1 + (p1 / p0 - 1)))
              ((((p1 :: rest).zip rest).map (fun pr => some (pr.2 / pr.1 - 1))).map
                (Option.map (fun r => 1 + r))))) := by
    rw [hMeq]
    simp only [cumprodSkip, expandingMaxAux, List.zipWith_cons_cons, ddEntry]
    norm_num
  have hmdd : calculate_max_drawdown (p0 :: p1 :: rest)
      = List.foldl minStep (some 0)
          (List.zipWith ddEntry
            (cumprodSkip (1 * (1 + (p1 / p0 - 1)))
              ((((p1 :: rest).zip rest).map (fun pr => some (pr.2 / pr.1 - 1))).map
                (Option.map (fun r => 1 + r))))
            (expandingMaxAux (some (1 * (1 + (p1 / p0 - 1))))
              (cumprodSkip (1 * (1 + (p1 / p0 - 1)))
                ((((p1 :: rest).zip rest).map (fun pr => some (pr.2 / pr.1 - 1))).map
                  (Option.map (fun r => 1 + r)))))) := by
    rw [calculate_max_drawdown, minSkip, hdd]
    simp [minStep]
  have htl_nonpos : ∀ d ∈ List.zipWith ddEntry
      (cumprodSkip (1 * (1 + (p1 / p0 - 1)))
        ((((p1 :: rest).zip rest).map (fun pr => some (pr.2 / pr.1 - 1))).map
          (Option.map (fun r => 1 + r))))
      (expandingMaxAux (some (1 * (1 + (p1 / p0 - 1))))
        (cumprodSkip (1 * (1 + (p1 / p0 - 1)))
          ((((p1 :: rest).zip rest).map (fun pr => some (pr.2 / pr.1 - 1))).map
            (Option.map (fun r => 1 + r))))),
      ∀ dv : ℚ, d = some dv → dv ≤ 0 := by
    apply drawdown_entries_nonpos
    · intro v hv
      injection hv with h2
      rw [← h2]
      exact he0'
    · exact cumprodSkip_pos _ _ he0' hMtlpos
  obtain ⟨q, hq, hq0⟩ := foldl_minStep_nonpos _ 0 le_rfl htl_nonpos
  refine ⟨q, by rw [hmdd]; exact hq, hq0, ?_⟩
  intro hch
  have hge1 : ∀ x ∈ (pct_change (p0 :: p1 :: rest)).map (Option.map (fun r => 1 + r)),
      ∀ v : ℚ, x = some v → 1 ≤ v := by
    intro x hx v hv
    rcases one_add_pct_mem (p0 :: p1 :: rest) x hx with h | ⟨a, b, hab, hx2⟩
    · rw [h] at hv; cases hv
    · rw [hx2] at hv
      injection hv with hv2
      have hmz := List.of_mem_zip hab
      have ha' : 0 < a := hpos a hmz.1
      have hab' : a ≤ b := chain'_zip_tail hch (a, b) hab
      rw [← hv2, show 1 + (b / a - 1) = b / a from by ring]
      exact (one_le_div ha').mpr hab'
  have htl_zero : ∀ d ∈ List.zipWith ddEntry
      (cumprodSkip (1 * (1 + (p1 / p0 - 1)))
        ((((p1 :: rest).zip rest).map (fun pr => some (pr.2 / pr.1 - 1))).map
          (Option.map (fun r => 1 + r))))
      (expandingMaxAux (some (1 * (1 + (p1 / p0 - 1))))
        (cumprodSkip (1 * (1 + (p1 / p0 - 1)))
          ((((p1 :: rest).zip rest).map (fun pr => some (pr.2 / pr.1 - 1))).map
            (Option.map (fun r => 1 + r))))),
      ∀ dv : ℚ, d = some dv → dv = 0 := by
    apply drawdown_entries_zero _ _ _ he0'
    · intro x hx
      apply hge1
      rw [hMeq]
      exact List.mem_cons_of_mem _ (List.mem_cons_of_mem _ hx)
    · intro v hv
      injection hv with h2
      rw [← h2]
      exact ⟨he0', le_refl _⟩
  have hz := foldl_minStep_zero _ htl_zero
  have : some q = some 0 := hq.symm.trans hz
  injection this

/-- Witness for C7 at a concrete series: prices [100, 110, 99] with a
10 percent decline from the peak. -/
theorem C7_max_drawdown_nonpos_witness :
    ∃ q : ℚ, calculate_max_drawdown [100, 110, 99] = some q ∧ q ≤ 0
      ∧ (List.Chain' (fun a b => a ≤ b) [(100 : ℚ), 110, 99] → q = 0) :=
  C7_max_drawdown_nonpos [100, 110, 99] (by simp) (by norm_num)

end StarSim

namespace StarSim

/-! ## Correlation helper lemmas -/

theorem pairedObs_swap : ∀ (x y : List (Option ℚ)),
    pairedObs y x = (pairedObs x y).map (fun p => (p.2, p.1)) := by
  intro x
  induction x with
  | nil =>
    intro y
    cases y <;> simp [pairedObs]
  | cons a xt ih =>
    intro y
    cases y with
    | nil => simp [pairedObs]
    | cons b yt =>
      cases a with
      | none => cases b <;> simpa [pairedObs, List.filterMap_cons] using ih yt
      | some va =>
        cases b with
        | none => simpa [pairedObs, List.filterMap_cons] using ih yt
        | some vb => simpa [pairedObs, List.filterMap_cons] using ih yt

theorem map_fst_swap (l : List (ℚ × ℚ)) :
    (l.map (fun p => (p.2, p.1))).map Prod.fst = l.map Prod.snd := by
  rw [List.map_map]
  rfl

theorem map_snd_swap (l : List (ℚ × ℚ)) :
    (l.map (fun p => (p.2, p.1))).map Prod.snd = l.map Prod.fst := by
  rw [List.map_map]
  rfl

theorem covSum_swap (l : List (ℚ × ℚ)) :
    covSum (l.map (fun p => (p.2, p.1))) = covSum l := by
  rw [covSum, covSum, map_fst_swap, map_snd_swap, List.map_map]
  apply map_sum_congr
  intro p _
  show (p.2 - meanL (l.map Prod.snd)) * (p.1 - meanL (l.map Prod.fst))
      = (p.1 - meanL (l.map Prod.fst)) * (p.2 - meanL (l.map Prod.snd))
  ring

theorem corrEntry_comm (x y : List (Option ℚ)) : corrEntry x y = corrEntry y x := by
  rw [corrEntry, corrEntry, pairedObs_swap x y, map_fst_swap, map_snd_swap, covSum_swap,
    List.length_map,
    mul_comm ((ssqdmL ((pairedObs x y).map Prod.snd) : ℝ))
      ((ssqdmL ((pairedObs x y).map Prod.fst) : ℝ))]

theorem pairedObs_self : ∀ (x : List (Option ℚ)),
    pairedObs x x = (x.filterMap id).map (fun v => (v, v)) := by
  intro x
  induction x with
  | nil => rfl
  | cons a t ih =>
    cases a with
    | none => simpa [pairedObs, List.filterMap_cons] using ih
    | some v => simpa [pairedObs, List.filterMap_cons] using ih

theorem map_dup_fst (l : List ℚ) : (l.map (fun v => (v, v))).map Prod.fst = l := by
  induction l with
  | nil => rfl
  | cons a t ih => simp [ih]

theorem map_dup_snd (l : List ℚ) : (l.map (fun v => (v, v))).map Prod.snd = l := by
  induction l with
  | nil => rfl
  | cons a t ih => simp [ih]

theorem corrEntry_self (x : List (Option ℚ))
    (hpos : 0 < ssqdmL ((pairedObs x x).map Prod.fst)) :
    corrEntry x x = some 1 := by
  have hfst : (pairedObs x x).map Prod.fst = x.filterMap id := by
    rw [pairedObs_self, map_dup_fst]
  have hsnd : (pairedObs x x).map Prod.snd = x.filterMap id := by
    rw [pairedObs_self, map_dup_snd]
  have hcov : covSum (pairedObs x x) = ssqdmL (x.filterMap id) := by
    rw [covSum, hfst, hsnd, ssqdmL, pairedObs_self, List.map_map]
    apply map_sum_congr
    intro v _
    show (v - meanL (x.filterMap id)) * (v - meanL (x.filterMap id))
        = (v - meanL (x.filterMap id)) ^ 2
    ring
  rw [hfst] at hpos
  have hlen : ¬((pairedObs x x).length < 1) := by
    intro hl
    have h0 : pairedObs x x = [] := List.length_eq_zero.mp (by omega)
    have : x.filterMap id = [] := by rw [← hfst, h0]; rfl
    rw [this] at hpos
    simp [ssqdmL] at hpos
  have hS : (0 : ℝ) < (ssqdmL (x.filterMap id) : ℝ) := by
    exact_mod_cast hpos
  rw [corrEntry, if_neg hlen, hfst, hsnd, hcov]
  rw [Real.sqrt_mul_self hS.le]
  rw [if_neg hS.ne']
  rw [div_self hS.ne']

theorem corrEntry_of_small (x y : List (Option ℚ))
    (h : (pairedObs x y).length < 2) : corrEntry x y = none := by
  have hd : (pairedObs x y).length = 0 ∨ (pairedObs x y).length = 1 := by omega
  rcases hd with h0 | h1
  · rw [corrEntry, if_pos (by omega)]
  · obtain ⟨p, hp⟩ := List.length_eq_one.mp h1
    rw [corrEntry, hp]
    have hS : ssqdmL ([p].map Prod.fst) = 0 := by
      simp [ssqdmL, meanL]
    rw [hS]
    norm_num

theorem lookup_some_mem_fst {β : Type} :
    ∀ (l : List (String × β)) (a : String) (x : β),
      l.lookup a = some x → a ∈ l.map Prod.fst := by
  intro l
  induction l with
  | nil => intro a x h; simp [List.lookup] at h
  | cons p t ih =>
    intro a x h
    by_cases hak : a = p.1
    · simp [hak]
    · have hb : (a == p.1) = false := by simp [hak]
      rw [show p = (p.1, p.2) from rfl, List.lookup] at h
      simp only [hb] at h
      exact List.mem_cons_of_mem _ (ih a x h)

end StarSim

namespace StarSim

/-! ## Claim C5 -/

/-- Counterexample to claim C5: a symbol whose return series is
constant (close doubles each day, so every return is 1.0) has zero
variance, and the pandas corr diagonal entry is then NaN, not 1.0,
while the symbol is still included in the matrix. -/
theorem C5_counterexample_constant_diagonal :
    "A" ∈ corrSymbols [("A", [((0 : ℕ), (100 : ℚ)), (1, 200), (2, 400)])]
    ∧ corrMatrix [("A", [((0 : ℕ), (100 : ℚ)), (1, 200), (2, 400)])] "A" "A" = none := by
  constructor
  · simp [corrSymbols, corrCols]
  · have hx : (corrCols [("A", [((0 : ℕ), (100 : ℚ)), (1, 200), (2, 400)])]).lookup "A"
        = some [none, some 1, some 1] := by
      norm_num [corrCols, pct_change, List.lookup]
    rw [corrMatrix, hx]
    show corrEntry [none, some 1, some 1] [none, some 1, some 1] = none
    have hobs : pairedObs [none, some (1 : ℚ), some 1] [none, some (1 : ℚ), some 1]
        = [(1, 1), (1, 1)] := by
      simp [pairedObs]
    rw [corrEntry, hobs]
    have hS : ssqdmL ([((1 : ℚ), (1 : ℚ)), (1, 1)].map Prod.fst) = 0 := by
      norm_num [ssqdmL, meanL]
    rw [hS]
    norm_num

/-- Claim C5 (amended): the correlation matrix is symmetric for every
pair of symbols, and the diagonal entry of an included symbol equals
1.0 whenever the aligned return column has nonzero variance (positive
sum of squared deviations over its valid entries); for a symbol whose
aligned return series is constant the diagonal entry is the NaN
sentinel instead (see the counterexample). -/
theorem C5_corr_symmetric_diagonal (data : List (String × List (ℕ × ℚ))) :
    (∀ a b : String, corrMatrix data a b = corrMatrix data b a)
    ∧ (∀ (a : String) (x : List (Option ℚ)),
        (corrCols data).lookup a = some x →
        0 < ssqdmL ((pairedObs x x).map Prod.fst) →
        corrMatrix data a a = some 1) := by
  constructor
  · intro a b
    rw [corrMatrix, corrMatrix]
    cases h1 : (corrCols data).lookup a <;> cases h2 : (corrCols data).lookup b <;>
      simp [corrEntry_comm]
  · intro a x hx hpos
    rw [corrMatrix, hx]
    exact corrEntry_self x hpos

/-- Witness for C5 at a concrete batch: one symbol with a
non-degenerate return column; its diagonal entry is exactly 1. -/
theorem C5_corr_symmetric_diagonal_witness :
    (corrCols [("A", [((0 : ℕ), (100 : ℚ)), (1, 110), (2, 100)])]).lookup "A"
      = some [none, some (1 / 10), some (-1 / 11)]
    ∧ 0 < ssqdmL ((pairedObs [none, some ((1 : ℚ) / 10), some (-1 / 11)]
        [none, some ((1 : ℚ) / 10), some (-1 / 11)]).map Prod.fst)
    ∧ corrMatrix [("A", [((0 : ℕ), (100 : ℚ)), (1, 110), (2, 100)])] "A" "A" = some 1 := by
  have hx : (corrCols [("A", [((0 : ℕ), (100 : ℚ)), (1, 110), (2, 100)])]).lookup "A"
      = some [none, some (1 / 10), some (-1 / 11)] := by
    norm_num [corrCols, pct_change, List.lookup]
  have hobs : pairedObs [none, some ((1 : ℚ) / 10), some (-1 / 11)]
      [none, some ((1 : ℚ) / 10), some (-1 / 11)]
      = [(1 / 10, 1 / 10), (-1 / 11, -1 / 11)] := by
    simp [pairedObs]
  have hpos : 0 < ssqdmL ((pairedObs [none, some ((1 : ℚ) / 10), some (-1 / 11)]
      [none, some ((1 : ℚ) / 10), some (-1 / 11)]).map Prod.fst) := by
    rw [hobs]
    norm_num [ssqdmL, meanL]
  exact ⟨hx, hpos,
    (C5_corr_symmetric_diagonal [("A", [((0 : ℕ), (100 : ℚ)), (1, 110), (2, 100)])]).2
      "A" [none, some (1 / 10), some (-1 / 11)] hx hpos⟩

end StarSim

namespace StarSim

/-! ## Claim C2 -/

/-- Counterexample to claim C2: two symbols with valid 3-point series
on disjoint date ranges.  Symbol B contributes 0 aligned observations
(fewer than 2), yet it is NOT absent from the matrix — it appears as a
column (with undefined entries), because the returns frame is built by
reindexing onto the first symbol index, not by an inner join that
drops it. -/
theorem C2_counterexample_left_join :
    corrSymbols [("A", [((0 : ℕ), (100 : ℚ)), (1, 101), (2, 102)]),
        ("B", [((10 : ℕ), (100 : ℚ)), (11, 101), (12, 102)])] = ["A", "B"]
    ∧ (pairedObs
        (((corrCols [("A", [((0 : ℕ), (100 : ℚ)), (1, 101), (2, 102)]),
            ("B", [((10 : ℕ), (100 : ℚ)), (11, 101), (12, 102)])]).lookup "A").getD [])
        (((corrCols [("A", [((0 : ℕ), (100 : ℚ)), (1, 101), (2, 102)]),
            ("B", [((10 : ℕ), (100 : ℚ)), (11, 101), (12, 102)])]).lookup "B").getD [])).length
      = 0 := by
  constructor
  · simp [corrSymbols, corrCols]
  · simp [corrCols, pairedObs, pct_change, pctChangeTS, lookupTS, List.lookup]

/-- Claim C2 (amended): the Correlation Analyzer aligns returns by a
LEFT join onto the index of the first symbol whose series has more
than one observation (not an inner join over all series); the symbols
of the matrix are exactly those with series length > 1; every
non-first included symbol column is its return series reindexed onto
the first symbol timestamps; and a symbol contributing fewer than 2
aligned observations with some other symbol is NOT dropped — both
symbols stay in the matrix and that pairwise entry is the undefined
sentinel, with no error raised. -/
theorem C2_correlation_left_join (data : List (String × List (ℕ × ℚ))) :
    (corrSymbols data = (data.filter (fun p => 1 < p.2.length)).map Prod.fst)
    ∧ (∀ (s₀ : String) (ser₀ : List (ℕ × ℚ)) (rest : List (String × List (ℕ × ℚ))),
        data.filter (fun p => 1 < p.2.length) = (s₀, ser₀) :: rest →
        ∀ (s : String) (ser : List (ℕ × ℚ)), (s, ser) ∈ rest →
          (s, (ser₀.map Prod.fst).map (lookupTS (pctChangeTS ser))) ∈ corrCols data)
    ∧ (∀ (a b : String) (x y : List (Option ℚ)),
        (corrCols data).lookup a = some x → (corrCols data).lookup b = some y →
        (pairedObs x y).length < 2 →
        corrMatrix data a b = none ∧ a ∈ corrSymbols data ∧ b ∈ corrSymbols data) := by
  refine ⟨?_, ?_, ?_⟩
  · rw [corrSymbols, corrCols]
    cases hfil : data.filter (fun p => 1 < p.2.length) with
    | nil => rfl
    | cons p rest =>
      rcases p with ⟨s₀, ser₀⟩
      simp only [List.map_cons, List.map_map]
      rfl
  · intro s₀ ser₀ rest hfil s ser hmem
    rw [corrCols, hfil]
    exact List.mem_cons_of_mem _ (List.mem_map.mpr ⟨(s, ser), hmem, rfl⟩)
  · intro a b x y hxa hxb hsmall
    refine ⟨?_, ?_, ?_⟩
    · rw [corrMatrix, hxa, hxb]
      exact corrEntry_of_small x y hsmall
    · exact lookup_some_mem_fst _ a x hxa
    · exact lookup_some_mem_fst _ b y hxb

/-- Witness for C2 at the disjoint-date batch: the pairwise entry of A
and B is the undefined sentinel while both symbols stay in the
matrix. -/
theorem C2_correlation_left_join_witness :
    corrMatrix [("A", [((0 : ℕ), (100 : ℚ)), (1, 101), (2, 102)]),
        ("B", [((10 : ℕ), (100 : ℚ)), (11, 101), (12, 102)])] "A" "B" = none
    ∧ "B" ∈ corrSymbols [("A", [((0 : ℕ), (100 : ℚ)), (1, 101), (2, 102)]),
        ("B", [((10 : ℕ), (100 : ℚ)), (11, 101), (12, 102)])] := by
  have hxa : (corrCols [("A", [((0 : ℕ), (100 : ℚ)), (1, 101), (2, 102)]),
      ("B", [((10 : ℕ), (100 : ℚ)), (11, 101), (12, 102)])]).lookup "A"
      = some [none, some (1 / 100), some (1 / 101)] := by
    norm_num [corrCols, pct_change, List.lookup]
  have hxb : (corrCols [("A", [((0 : ℕ), (100 : ℚ)), (1, 101), (2, 102)]),
      ("B", [((10 : ℕ), (100 : ℚ)), (11, 101), (12, 102)])]).lookup "B"
      = some [none, none, none] := by
    simp [corrCols, pct_change, pctChangeTS, lookupTS, List.lookup]
  have hsmall : (pairedObs [none, some ((1 : ℚ) / 100), some (1 / 101)]
      [none, none, none]).length < 2 := by
    simp [pairedObs]
  have H := (C2_correlation_left_join [("A", [((0 : ℕ), (100 : ℚ)), (1, 101), (2, 102)]),
      ("B", [((10 : ℕ), (100 : ℚ)), (11, 101), (12, 102)])]).2.2 "A" "B"
      [none, some (1 / 100), some (1 / 101)] [none, none, none] hxa hxb hsmall
  exact ⟨H.1, H.2.2⟩

end StarSim
